import Mathlib

/-!
Verification development for the blossom-drive-client repository.

The definitions below are a shallow embedding of `src/Drive.ts`,
`src/EncryptedDrive.ts`, `src/Upload.ts` and `src/helpers.ts`.
Stateful classes become explicit state records; methods become pure
functions returning the new state together with an `Except` for thrown
errors, the list of emitted notifications and the list of published
events.  External collaborators (signer, network, MIME lookup,
symmetric cipher) are passed in as function parameters.  The pieces of
the repository that are not part of the given sources (the `FileTree`
methods, `nostr.ts` tag serialization, the platform `URL` constructor)
are modelled from the specification and carry a doc comment saying so.
-/

/-- Metadata stored on a file node of the tree (`FileMetadata` in
`FileTree/TreeFile.ts`): content hash, byte size and MIME type. -/
structure FileMetadata where
  sha256 : String
  size : Nat
  type : String
deriving DecidableEq, Repr

/-- A node of the drive's file tree: `TreeFile` or `TreeFolder`. -/
inductive TreeNode where
  | file (name : String) (meta : FileMetadata)
  | folder (name : String) (children : List TreeNode)
deriving Repr

/-- Name of a tree node. -/
def TreeNode.name : TreeNode → String
  | .file n _ => n
  | .folder n _ => n

/-- Rename a node (used when re-attaching a moved node). -/
def TreeNode.rename : TreeNode → String → TreeNode
  | .file _ m, n => .file n m
  | .folder _ cs, n => .folder n cs

/-- Replace the child named `p` with `c'` in a child list. -/
def replaceChild (cs : List TreeNode) (p : String) (c' : TreeNode) : List TreeNode :=
  cs.map (fun c => if c.name = p then c' else c)

/-- Modelled from the spec: `resolve-as-folder(path, createIfMissing)` from
`FileTree/methods.ts` (not among the given sources).  Resolves a path to
a folder, creating intermediate folders on demand when requested, and
fails when a component is missing (without create) or is a file.
Returns the updated tree together with the resolved folder. -/
def FileTree.getFolder : TreeNode → List String → Bool → Except String (TreeNode × TreeNode)
  | t, [], _ =>
    match t with
    | .folder n cs => .ok (.folder n cs, .folder n cs)
    | .file _ _ => .error "Not a folder"
  | .file _ _, _ :: _, _ => .error "Not a folder"
  | .folder n cs, p :: ps, create =>
    match cs.find? (fun c => c.name = p) with
    | some c =>
      match FileTree.getFolder c ps create with
      | .ok (c', f) => .ok (.folder n (replaceChild cs p c'), f)
      | .error m => .error m
    | none =>
      if create then
        match FileTree.getFolder (.folder p []) ps create with
        | .ok (c', f) => .ok (.folder n (cs ++ [c']), f)
        | .error m => .error m
      else .error "Folder not found"

/-- Modelled from the spec: `set-file(path, fileMetadata)` from
`FileTree/methods.ts` (not among the given sources).  Creates or
overwrites the leaf at the path, creating intermediate folders. -/
def FileTree.setFile : TreeNode → List String → FileMetadata → Except String TreeNode
  | _, [], _ => .error "Invalid path"
  | .file _ _, _ :: _, _ => .error "Not a folder"
  | .folder n cs, [leaf], meta =>
    .ok (.folder n (cs.filter (fun c => c.name ≠ leaf) ++ [TreeNode.file leaf meta]))
  | .folder n cs, p :: ps, meta =>
    match cs.find? (fun c => c.name = p) with
    | some c =>
      match FileTree.setFile c ps meta with
      | .ok c' => .ok (.folder n (replaceChild cs p c'))
      | .error m => .error m
    | none =>
      match FileTree.setFile (.folder p []) ps meta with
      | .ok c' => .ok (.folder n (cs ++ [c']))
      | .error m => .error m

/-- Modelled from the spec: `remove(path)` from `FileTree/methods.ts`
(not among the given sources).  Detaches the node at the path; a
missing node is an error, not a silent no-op. -/
def FileTree.remove : TreeNode → List String → Except String TreeNode
  | _, [] => .error "Invalid path"
  | .file _ _, _ :: _ => .error "Not a folder"
  | .folder n cs, [leaf] =>
    if cs.any (fun c => c.name = leaf) then
      .ok (.folder n (cs.filter (fun c => c.name ≠ leaf)))
    else .error "Not found"
  | .folder n cs, p :: ps =>
    match cs.find? (fun c => c.name = p) with
    | some c =>
      match FileTree.remove c ps with
      | .ok c' => .ok (.folder n (replaceChild cs p c'))
      | .error m => .error m
    | none => .error "Not found"

/-- Resolve a path to the node sitting there, if any. -/
def FileTree.getNode : TreeNode → List String → Option TreeNode
  | t, [] => some t
  | .file _ _, _ :: _ => none
  | .folder _ cs, p :: ps =>
    (cs.find? (fun c => c.name = p)).bind (fun c => FileTree.getNode c ps)

/-- Modelled from the spec: re-attaching a detached node at a destination
path during `move` (from `FileTree/methods.ts`, not among the given
sources); the destination's parent folders are auto-created. -/
def FileTree.attachNode : TreeNode → List String → TreeNode → Except String TreeNode
  | _, [], _ => .error "Invalid path"
  | .file _ _, _ :: _, _ => .error "Not a folder"
  | .folder n cs, [leaf], node =>
    .ok (.folder n (cs.filter (fun c => c.name ≠ leaf) ++ [node.rename leaf]))
  | .folder n cs, p :: ps, node =>
    match cs.find? (fun c => c.name = p) with
    | some c =>
      match FileTree.attachNode c ps node with
      | .ok c' => .ok (.folder n (replaceChild cs p c'))
      | .error m => .error m
    | none =>
      match FileTree.attachNode (.folder p []) ps node with
      | .ok c' => .ok (.folder n (cs ++ [c']))
      | .error m => .error m

/-- Modelled from the spec: `move(srcPath, destPath)` from
`FileTree/methods.ts` (not among the given sources).  Detaches the node
at `src` and re-attaches it at `dest`; fails when `src` does not
exist. -/
def FileTree.move (t : TreeNode) (src dest : List String) : Except String TreeNode :=
  match FileTree.getNode t src with
  | none => .error "Not found"
  | some node =>
    match FileTree.remove t src with
    | .ok t1 => FileTree.attachNode t1 dest node
    | .error m => .error m

/-- Splitting a character list on '/', accumulating the current
component in reverse. -/
def splitPathAux : List Char → List Char → List String
  | [], acc => [String.mk acc.reverse]
  | '/' :: rest, acc => String.mk acc.reverse :: splitPathAux rest []
  | c :: rest, acc => splitPathAux rest (c :: acc)

/-- Split a '/'-delimited path string into its components. -/
def splitPath (s : String) : List String :=
  (splitPathAux s.data []).filter (fun c => c ≠ "")

/-- Modelled from the spec: `joinPath` from `FileTree/methods.ts` (not
among the given sources) joins a base path and a relative path. -/
def joinPath (base p : String) : List String :=
  splitPath base ++ splitPath p

/-- Split a character list at the first occurrence of "://". -/
def splitScheme : List Char → Option (List Char × List Char)
  | [] => none
  | ':' :: '/' :: '/' :: rest => some ([], rest)
  | c :: rest => (splitScheme rest).map (fun p => (c :: p.1, p.2))

/-- Modelled from the spec: the platform `URL` constructor used as
`new URL("/", base).toString()`, which resolves a base URL to its
origin root (scheme plus authority plus "/") and throws when the base
is not an absolute URL. -/
def resolveOriginRoot (base : String) : Option String :=
  match splitScheme base.data with
  | some (scheme, rest) =>
    if scheme ≠ [] ∧ rest ≠ [] then
      some (String.mk scheme ++ "://" ++ String.mk (rest.takeWhile (fun c => c ≠ '/')) ++ "/")
    else none
  | none => none

/-- A nostr event (`EventTemplate` or `SignedEvent`): templates have
`pubkey = none`, signed events carry `some pubkey`. -/
structure Event where
  kind : Nat
  content : String
  created_at : Nat
  tags : List (List String)
  pubkey : Option String
deriving DecidableEq, Repr

/-- `DRIVE_KIND` from `Drive.ts`. -/
def DRIVE_KIND : Nat := 30563

/-- `ENCRYPTED_DRIVE_KIND` from `EncryptedDrive.ts`. -/
def ENCRYPTED_DRIVE_KIND : Nat := 30564

/-- `DEFAULT_SCRYPT_LOGN` from `EncryptedDrive.ts`. -/
def DEFAULT_SCRYPT_LOGN : Nat := 10

/-- `DriveMetadata` from `Drive.ts`. -/
structure DriveMetadata where
  name : String
  identifier : String
  description : String
  servers : List String
  pubkey : Option String
  treeTags : List (List String)
deriving DecidableEq, Repr

/-- `getEmptyMetadata` from `Drive.ts`. -/
def getEmptyMetadata : DriveMetadata :=
  { name := "", identifier := "", description := "", servers := [],
    pubkey := none, treeTags := [] }

/-- The notifications a `Drive` can emit through its event emitter. -/
inductive Emit where
  | change
  | update
deriving DecidableEq, Repr

/-- The mutable state of a `Drive` instance from `Drive.ts`: the tree,
the resident event, the cached metadata and the dirty flag. -/
structure Drive where
  event : Option Event
  metadata : DriveMetadata
  tree : TreeNode
  modified : Bool

/-- `tags.find((t) => t[0] === k)?.[1]` — the value of the first tag
with the given key, when that tag has a second element. -/
def findTagValue (tags : List (List String)) (k : String) : Option String :=
  (tags.find? (fun t => t.head? = some k)).bind (fun t => t.get? 1)

/-- `t[1]` of a tag as JS reads it: the URL slot, the empty string when
missing. -/
def tagURL (t : List String) : String :=
  (t.get? 1).getD ""

/-- The `r`/`server` tags of an event that carry a truthy (nonempty)
URL, in order — the list `readEvent` maps over. -/
def serverTags (tags : List (List String)) : List (List String) :=
  tags.filter (fun t =>
    decide ((t.head? = some "r" ∨ t.head? = some "server") ∧ tagURL t ≠ ""))

/-- Normalization of the server URL list in `readEvent`: each URL is
resolved to its origin root; an unparsable URL throws. -/
def normalizeServers : List (List String) → Except String (List String)
  | [] => .ok []
  | t :: ts =>
    match resolveOriginRoot (tagURL t) with
    | some u =>
      match normalizeServers ts with
      | .ok us => .ok (u :: us)
      | .error m => .error m
    | none => .error "Invalid URL"

/-- `Drive.readEvent` from `Drive.ts` (lines 160-181): extracts the
metadata from an event's tags.  `ident` is the drive's current
`this.identifier`, used as the fallback for a missing `name` tag. -/
def Drive.readEvent (ident : String) (e : Event) : Except String DriveMetadata :=
  let name := (findTagValue e.tags "name").getD ident
  let description := (findTagValue e.tags "description").getD ""
  match normalizeServers (serverTags e.tags) with
  | .error m => .error m
  | .ok servers =>
    if (findTagValue e.tags "d").getD "" = "" then .error "Missing d tag"
    else
      .ok { name := name
            identifier := (findTagValue e.tags "d").getD ""
            description := description
            servers := servers
            pubkey := e.pubkey
            treeTags := e.tags.filter (fun t =>
              decide (t.head? = some "x" ∨ t.head? = some "folder")) }

/-- Modelled from the spec: `createTreeFromTags` from `nostr.ts` (not
among the given sources) decodes `folder` tags (carrying a path) and
`x` file tags (carrying hash, path, size and type) into a tree,
creating folders implicitly from file paths. -/
def createTreeFromTags (tags : List (List String)) : TreeNode :=
  tags.foldl (fun t tag =>
    match tag with
    | ["folder", path] =>
      match FileTree.getFolder t (splitPath path) true with
      | .ok (t', _) => t'
      | .error _ => t
    | ["x", sha, path, size, ty] =>
      match FileTree.setFile t (splitPath path) ⟨sha, size.toNat?.getD 0, ty⟩ with
      | .ok t' => t'
      | .error _ => t
    | _ => t) (TreeNode.folder "" [])

mutual

/-- Encoding of a tree node into tags, with the path accumulated so
far; part of the spec-modelled serialization. -/
def encodeTreeAux : TreeNode → String → List (List String)
  | .file n m, pre =>
    [["x", m.sha256, (if pre = "" then n else pre ++ "/" ++ n), toString m.size, m.type]]
  | .folder n cs, pre =>
    let path := if pre = "" then n else pre ++ "/" ++ n
    ["folder", path] :: encodeForest cs path

/-- Encoding of a list of sibling nodes into tags. -/
def encodeForest : List TreeNode → String → List (List String)
  | [], _ => []
  | c :: cs, pre => encodeTreeAux c pre ++ encodeForest cs pre

end

/-- Modelled from the spec: `updateTreeInTags` from `nostr.ts` (not
among the given sources) replaces the serialized-tree tags (`x` and
`folder`) in a tag list with the encoding of the current tree. -/
def updateTreeInTags (tags : List (List String)) (tree : TreeNode) : List (List String) :=
  tags.filter (fun t => decide (¬(t.head? = some "x" ∨ t.head? = some "folder")))
    ++ encodeTreeAux tree ""

/-- Normalization of the drive's configured server list inside
`createEventTemplate`; an unparsable URL throws. -/
def normalizeServerList : List String → Except String (List String)
  | [] => .ok []
  | s :: ss =>
    match resolveOriginRoot s with
    | some u =>
      match normalizeServerList ss with
      | .ok us => .ok (u :: us)
      | .error m => .error m
    | none => .error "Invalid URL"

/-- `Drive.createEventTemplate` from `Drive.ts` (lines 136-159): builds
the template for the next manifest event.  `now` is the wall clock in
seconds, passed explicitly. -/
def Drive.createEventTemplate (d : Drive) (now : Nat) : Except String Event :=
  let tags0 := updateTreeInTags (match d.event with | some e => e.tags | none => []) d.tree
  let removeTags := ["name", "description", "d", "r", "server"]
  let tags1 := tags0.filter (fun t => decide (¬ (t.head?.getD "") ∈ removeTags))
  match normalizeServerList d.metadata.servers with
  | .error m => .error m
  | .ok us =>
    let tags2 := (us.reverse.map (fun u => ["server", u])) ++ tags1
    let tags3 := ["name", d.metadata.name] :: ["description", d.metadata.description]
      :: ["d", d.metadata.identifier] :: tags2
    .ok { kind := DRIVE_KIND
          content := (d.event.map (fun e => e.content)).getD ""
          created_at := now
          tags := tags3
          pubkey := none }

/-- `Drive.resetFromEvent` from `Drive.ts` (lines 203-209): re-derives
metadata and tree from the resident event and clears the dirty flag. -/
def Drive.resetFromEvent (d : Drive) : Drive × Except String Unit × List Emit :=
  match d.event with
  | none => (d, .ok (), [])
  | some e =>
    match Drive.readEvent d.metadata.identifier e with
    | .error m => (d, .error m, [])
    | .ok md =>
      ({ d with metadata := md, tree := createTreeFromTags md.treeTags, modified := false },
        .ok (), [Emit.change])

/-- `Drive.update` from `Drive.ts` (lines 192-201): last-writer-wins
application of an inbound event. -/
def Drive.update (d : Drive) (e : Event) : Drive × Except String Bool × List Emit :=
  if (match d.event with | none => true | some r => decide (r.created_at < e.created_at)) then
    let d1 := { d with event := some e }
    match Drive.resetFromEvent d1 with
    | (d2, .ok _, ems) => (d2, .ok true, ems ++ [Emit.update])
    | (d2, .error m, ems) => (d2, .error m, ems)
  else (d, .ok false, [])

/-- `Drive.save` from `Drive.ts` (lines 184-190).  The external signer
is a function parameter; the publisher is modelled by the returned list
of published events (publishing itself always succeeds). -/
def Drive.save (signer : Event → Event) (now : Nat) (d : Drive) :
    Drive × Except String (Option Event) × List Event :=
  if d.modified = false then (d, .ok none, [])
  else
    match Drive.createEventTemplate d now with
    | .error m => (d, .error m, [])
    | .ok tpl =>
      let signed := signer tpl
      match Drive.update d signed with
      | (d', .ok _, _) => (d', .ok (some signed), [signed])
      | (d', .error m, _) => (d', .error m, [signed])

/-- The timestamp of the resident event (0 when none). -/
def residentStamp (d : Drive) : Nat :=
  match d.event with
  | none => 0
  | some r => r.created_at

/-- Result of a mutating `Drive` method: the new state, the emitted
notifications, and the events published through the publisher (always
empty for the mutators — only `save` publishes). -/
structure MutResult where
  drive : Drive
  emits : List Emit
  published : List Event

/-- The `identifier` setter from `Drive.ts` (lines 79-83). -/
def Drive.setIdentifier (d : Drive) (v : String) : MutResult :=
  { drive := { d with metadata := { d.metadata with identifier := v }, modified := true },
    emits := [Emit.change], published := [] }

/-- The `name` setter from `Drive.ts` (lines 87-91). -/
def Drive.setName (d : Drive) (v : String) : MutResult :=
  { drive := { d with metadata := { d.metadata with name := v }, modified := true },
    emits := [Emit.change], published := [] }

/-- The `description` setter from `Drive.ts` (lines 95-99). -/
def Drive.setDescription (d : Drive) (v : String) : MutResult :=
  { drive := { d with metadata := { d.metadata with description := v }, modified := true },
    emits := [Emit.change], published := [] }

/-- The `servers` setter from `Drive.ts` (lines 103-107). -/
def Drive.setServers (d : Drive) (v : List String) : MutResult :=
  { drive := { d with metadata := { d.metadata with servers := v }, modified := true },
    emits := [Emit.change], published := [] }

/-- `Drive.getFolder` from `Drive.ts` (lines 225-229): resolves (and
with `create = true` creates) the folder, and marks the drive modified
when `create` is set — note that it emits no notification. -/
def Drive.getFolder (d : Drive) (path : List String) (create : Bool) :
    Except String (MutResult × TreeNode) :=
  match FileTree.getFolder d.tree path create with
  | .error m => .error m
  | .ok (t', folder) =>
    .ok ({ drive := { d with tree := t', modified := if create then true else d.modified },
           emits := [], published := [] }, folder)

/-- `Drive.remove` from `Drive.ts` (lines 264-268). -/
def Drive.remove (d : Drive) (path : List String) : Except String MutResult :=
  match FileTree.remove d.tree path with
  | .error m => .error m
  | .ok t' =>
    .ok { drive := { d with tree := t', modified := true },
          emits := [Emit.change], published := [] }

/-- `Drive.move` from `Drive.ts` (lines 271-275). -/
def Drive.move (d : Drive) (src dest : List String) : Except String MutResult :=
  match FileTree.move d.tree src dest with
  | .error m => .error m
  | .ok t' =>
    .ok { drive := { d with tree := t', modified := true },
          emits := [Emit.change], published := [] }

/-- `Drive.setFile` from `Drive.ts` (lines 278-283). -/
def Drive.setFile (d : Drive) (path : List String) (meta : FileMetadata) :
    Except String MutResult :=
  match FileTree.setFile d.tree path meta with
  | .error m => .error m
  | .ok t' =>
    .ok { drive := { d with tree := t', modified := true },
          emits := [Emit.change], published := [] }

/-- The state of an `EncryptedDrive` from `EncryptedDrive.ts`: the base
`Drive` state plus the lock flag, the scrypt cost, and the password
association held in the module-level `drivePasswords` weak map. -/
structure EncryptedDrive extends Drive where
  locked : Bool
  logn : Nat
  password : Option String

/-- `EncryptedDrive.readEvent` from `EncryptedDrive.ts` (lines 55-66).
`dec` models the `base64.decode`/`decrypt`/`TextDecoder`/`JSON.parse`
chain turning the event content and the password into the plaintext tag
list (`none` models a decryption failure being thrown). -/
def EncryptedDrive.readEvent (dec : String → String → Option (List (List String)))
    (s : EncryptedDrive) (e : Event) : EncryptedDrive × Except String DriveMetadata :=
  match s.password with
  | none => (s, .error "No password provided")
  | some pw =>
    match dec e.content pw with
    | none => (s, .error "Failed to decrypt")
    | some tags =>
      let s1 := { s with locked := false }
      (s1, Drive.readEvent s1.metadata.identifier
        { e with content := "", tags := tags, created_at := 0 })

/-- `resetFromEvent` as inherited by `EncryptedDrive`: the code of
`Drive.resetFromEvent` with the overridden `readEvent`. -/
def EncryptedDrive.resetFromEvent (dec : String → String → Option (List (List String)))
    (s : EncryptedDrive) : EncryptedDrive × Except String Unit × List Emit :=
  match s.event with
  | none => (s, .ok (), [])
  | some e =>
    match EncryptedDrive.readEvent dec s e with
    | (s1, .error m) => (s1, .error m, [])
    | (s1, .ok md) =>
      ({ s1 with metadata := md, tree := createTreeFromTags md.treeTags, modified := false },
        .ok (), [Emit.change])

/-- `EncryptedDrive.unlock` from `EncryptedDrive.ts` (lines 25-37). -/
def EncryptedDrive.unlock (dec : String → String → Option (List (List String)))
    (s : EncryptedDrive) (pw : String) : EncryptedDrive × Except String Unit :=
  match s.event with
  | none => (s, .error "No Event")
  | some _ =>
    if s.locked = false then (s, .error "Already unlocked")
    else
      let s1 := { s with password := some pw, locked := false }
      match EncryptedDrive.resetFromEvent dec s1 with
      | (s2, .ok _, _) => (s2, .ok ())
      | (s2, .error m, _) => ({ s2 with password := none, locked := true }, .error m)

/-- `EncryptedDrive.lock` from `EncryptedDrive.ts` (lines 38-45),
embedded exactly as written: note that it assigns `locked := false`. -/
def EncryptedDrive.lock (s : EncryptedDrive) : EncryptedDrive :=
  if s.locked = false then
    { s with
      password := none
      locked := false
      metadata := getEmptyMetadata
      tree := TreeNode.folder "" [] }
  else s

/-- JS `String.prototype.endsWith`, computed on the character lists. -/
def endsWithStr (s suffix : String) : Bool :=
  suffix.data.isSuffixOf s.data

/-- A browser `File` as far as this client inspects it: its name, its
declared MIME type and its `webkitRelativePath` (the empty string when
absent). -/
structure File where
  name : String
  type : String
  webkitRelativePath : String
deriving DecidableEq, Repr

/-- `correctFileMimeType` from `helpers.ts`: fixes the one known
browser mislabeling of `.m3u8` playlist files.  The `File` constructor
it uses produces a file with the same name, the corrected type and no
`webkitRelativePath`. -/
def correctFileMimeType (file : File) : File :=
  if file.type = "audio/x-mpegurl" ∧ endsWithStr file.name ".m3u8" then
    { name := file.name, type := "application/vnd.apple.mpegurl", webkitRelativePath := "" }
  else file

/-- A `FileSystemEntry`: a readable file entry (with its `fullPath`), a
file entry whose read fails (logged and skipped by the code), or a
directory with its child entries. -/
inductive FSEntry where
  | file (f : File) (fullPath : String)
  | fileError (fullPath : String)
  | dir (entries : List FSEntry)

/-- `BlobDescriptor` from the blossom client SDK, as consumed here. -/
structure BlobDescriptor where
  sha256 : String
  size : Nat
  type : String
deriving DecidableEq, Repr

/-- Per-server outcome of one upload attempt in `Upload.upload`:
the SDK call returns a blob, throws an `Error`, or throws a value that
is not an `instanceof Error`. -/
inductive UploadOutcome where
  | success (blob : BlobDescriptor)
  | failure (message : String)
  | thrownNonError
deriving Repr

/-- An entry of `UploadFileStatus.results` from `Upload.ts`. -/
inductive UploadResult where
  | success (blob : BlobDescriptor)
  | failure (message : String)
deriving DecidableEq, Repr

/-- `UploadFileStatus` from `Upload.ts`. -/
structure UploadFileStatus where
  complete : Bool
  pending : Bool
  serversComplete : Nat
  results : List (String × UploadResult)
deriving DecidableEq, Repr

/-- One element of `Upload.files`: the generated id, the file and its
destination path. -/
structure UploadFile where
  id : Nat
  file : File
  path : String
deriving DecidableEq, Repr

/-- Lookup in an association list (a JS object used as a map). -/
def lookupA {κ α : Type} [DecidableEq κ] : List (κ × α) → κ → Option α
  | [], _ => none
  | (a, v) :: t, k => if a = k then some v else lookupA t k

/-- Insert-or-replace in an association list. -/
def setA {κ α : Type} [DecidableEq κ] : List (κ × α) → κ → α → List (κ × α)
  | [], k, v => [(k, v)]
  | (k', v') :: t, k, v => if k' = k then (k, v) :: t else (k', v') :: setA t k v

/-- Update the value at a key of an association list in place (no-op
when the key is absent). -/
def modifyA {κ α : Type} [DecidableEq κ] : List (κ × α) → κ → (α → α) → List (κ × α)
  | [], _, _ => []
  | (k', v) :: t, k, f => if k' = k then (k, f v) :: t else (k', v) :: modifyA t k f

/-- `if (!this.blobs[server]) this.blobs[server] = {}` — make sure the
per-server map exists. -/
def ensureKey {α : Type} (m : List (String × List (Nat × α))) (k : String) :
    List (String × List (Nat × α)) :=
  match lookupA m k with
  | some _ => m
  | none => setA m k []

/-- The state of an `Upload` batch from `Upload.ts`.  The generated
nanoid ids are modelled by a deterministic counter `nextId`. -/
structure Upload where
  drive : Drive
  servers : List String
  basePath : String
  complete : Bool
  running : Bool
  nextId : Nat
  files : List UploadFile
  status : List (Nat × UploadFileStatus)
  blobs : List (String × List (Nat × BlobDescriptor))
  errors : List (String × List (Nat × String))

/-- `Upload.addFile` from `Upload.ts` (lines 96-103): path defaults to
the `webkitRelativePath` when present, else the file name; the file is
passed through `correctFileMimeType` before being recorded. -/
def Upload.addFile (u : Upload) (file : File) (path : Option String) : Upload :=
  let effPath :=
    match path with
    | some p =>
      if p ≠ "" then p
      else if file.webkitRelativePath ≠ "" then file.webkitRelativePath else file.name
    | none =>
      if file.webkitRelativePath ≠ "" then file.webkitRelativePath else file.name
  let corrected := correctFileMimeType file
  { u with files := u.files ++ [⟨u.nextId, corrected, effPath⟩], nextId := u.nextId + 1 }

/-- `Upload.addFileList` from `Upload.ts` (lines 106-110). -/
def Upload.addFileList (u : Upload) (fileList : List File) : Upload :=
  fileList.foldl (fun v f => Upload.addFile v f none) u

mutual

/-- `Upload.addFileSystemEntry` from `Upload.ts` (lines 113-127): a
file entry is read, passed through `correctFileMimeType` and recorded
with `entry.fullPath` as its path; a failed read is logged and skipped;
a directory recurses over its entries. -/
def Upload.addFileSystemEntry (u : Upload) : FSEntry → Upload
  | .file f p =>
    { u with files := u.files ++ [⟨u.nextId, correctFileMimeType f, p⟩], nextId := u.nextId + 1 }
  | .fileError _ => u
  | .dir es => Upload.addFileSystemEntries u es

/-- Folding `addFileSystemEntry` over the entries of a directory. -/
def Upload.addFileSystemEntries (u : Upload) : List FSEntry → Upload
  | [] => u
  | e :: es => Upload.addFileSystemEntries (Upload.addFileSystemEntry u e) es

end

/-- The `a || b || c || ""` chains of JS: the first truthy (nonempty)
string of the list, else the empty string. -/
def firstTruthy (l : List String) : String :=
  match l.find? (fun s => s ≠ "") with
  | some s => s
  | none => ""

/-- The body of the per-server `try`/`catch` in `Upload.upload`
(lines 163-190) for one file and one server.  `net server id` is the
outcome of `BlossomClient.uploadBlob` for that server; `mimeLookup`
models `mime.getType`.  A thrown value that is not an `Error` is
recorded nowhere; `serversComplete` is incremented regardless. -/
def Upload.serverStep (net : String → Nat → UploadOutcome)
    (mimeLookup : String → Option String) (u : Upload) (f : UploadFile)
    (server : String) : Upload :=
  let u0 := { u with blobs := ensureKey u.blobs server, errors := ensureKey u.errors server }
  let u1 :=
    match net server f.id with
    | .success blob =>
      let ua := { u0 with blobs := modifyA u0.blobs server (fun m => setA m f.id blob) }
      let ub := { ua with status := modifyA ua.status f.id (fun st =>
        { st with results := setA st.results server (UploadResult.success blob) }) }
      let ftype := firstTruthy [f.file.type, (mimeLookup f.file.name).getD "", blob.type]
      match Drive.setFile ub.drive (joinPath ub.basePath f.path)
          { sha256 := blob.sha256, size := blob.size, type := ftype } with
      | .ok r => { ub with drive := r.drive }
      | .error m =>
        let uc := { ub with errors := modifyA ub.errors server (fun es => setA es f.id m) }
        { uc with status := modifyA uc.status f.id (fun st =>
          { st with results := setA st.results server (UploadResult.failure m) }) }
    | .failure m =>
      let ua := { u0 with errors := modifyA u0.errors server (fun es => setA es f.id m) }
      { ua with status := modifyA ua.status f.id (fun st =>
        { st with results := setA st.results server (UploadResult.failure m) }) }
    | .thrownNonError => u0
  { u1 with status := modifyA u1.status f.id (fun st =>
    { st with serversComplete := st.serversComplete + 1 }) }

/-- The per-file body of the main loop of `Upload.upload`: clear the
pending flag, attempt every server in order, then mark the file's
status complete regardless of per-server failures. -/
def Upload.fileStep (net : String → Nat → UploadOutcome)
    (mimeLookup : String → Option String) (u : Upload) (f : UploadFile) : Upload :=
  let ua := { u with status := modifyA u.status f.id (fun st => { st with pending := false }) }
  let ub := ua.servers.foldl (fun v srv => Upload.serverStep net mimeLookup v f srv) ua
  { ub with status := modifyA ub.status f.id (fun st => { st with complete := true }) }

/-- `Upload.upload` from `Upload.ts` (lines 130-200), specialized to a
plain `Drive` target (for an `EncryptedDrive` the uploaded bytes and
filename are replaced before the network call, which does not touch the
status/blob/error bookkeeping modelled here).  A no-op when already
running or complete; otherwise initializes every file's status record,
processes the files in insertion order, then saves the drive once. -/
def Upload.upload (net : String → Nat → UploadOutcome)
    (mimeLookup : String → Option String) (signer : Event → Event) (now : Nat)
    (u : Upload) : Upload × Except String Unit :=
  if u.running || u.complete then (u, .ok ())
  else
    let ua := { u with running := true }
    let initStatus := ua.files.foldl (fun st f =>
      setA st f.id { complete := false, pending := true, serversComplete := 0, results := [] }) ua.status
    let ub := { ua with status := initStatus }
    let uc := ub.files.foldl (fun v f => Upload.fileStep net mimeLookup v f) ub
    match Drive.save signer now uc.drive with
    | (d', .ok _, _) => ({ uc with drive := d', complete := true }, .ok ())
    | (d', .error m, _) => ({ uc with drive := d' }, .error m)

/-- The per-server progress from the `progress` getter of `Upload.ts`
(lines 63-80): (blobs + errors) / total files for one server. -/
def Upload.serverProgress (u : Upload) (server : String) : ℚ :=
  ((((lookupA u.blobs server).getD []).length + ((lookupA u.errors server).getD []).length : Nat) : ℚ)
    / (u.files.length : ℚ)

/-- The overall progress: the unweighted mean of per-server progress. -/
def Upload.progress (u : Upload) : ℚ :=
  (u.servers.map (fun s => Upload.serverProgress u s)).foldl (fun t v => v + t) 0
    / (u.servers.length : ℚ)

/-- Readability of an event for `Drive.readEvent`: every server tag URL
parses and the first `d` tag carries a nonempty identifier.  Exactly
the condition under which `readEvent` does not throw. -/
def eventReadable (e : Event) : Bool :=
  (serverTags e.tags).all (fun t => (resolveOriginRoot (tagURL t)).isSome)
    && ((findTagValue e.tags "d").getD "" != "")

/-- An unlocked `EncryptedDrive` holding decrypted state, used to
evaluate `lock()`. -/
def c1Sample : EncryptedDrive :=
  { event := some ⟨ENCRYPTED_DRIVE_KIND, "c1ct", 10, [["d", "enc1"], ["scrypt-logn", "10"]], none⟩
    metadata := ⟨"My Drive", "enc1", "docs", ["https://a.com/"], none, []⟩
    tree := TreeNode.folder "" [TreeNode.file "a.txt" ⟨"h1", 1, "text/plain"⟩]
    modified := false
    locked := false
    logn := 10
    password := some "hunter2" }

/-- C1: evaluating `lock()` on an unlocked `EncryptedDrive` at the
failing input: the password association is torn down and tree/metadata
are reset to the empty defaults, but the drive does NOT end up locked —
`lock()` assigns `locked = false`, so the `locked` flag stays `false`
instead of the `true` the claim requires. -/
theorem encryptedDrive_lock_leaves_unlocked :
    (EncryptedDrive.lock c1Sample).password = none
    ∧ (EncryptedDrive.lock c1Sample).metadata = getEmptyMetadata
    ∧ (EncryptedDrive.lock c1Sample).tree = TreeNode.folder "" []
    ∧ (EncryptedDrive.lock c1Sample).event = c1Sample.event
    ∧ (EncryptedDrive.lock c1Sample).locked = false :=
  ⟨rfl, rfl, rfl, rfl, rfl⟩

/-- An event carrying the same server origin in two tags. -/
def c5Event : Event :=
  ⟨DRIVE_KIND, "", 1,
    [["d", "drive1"], ["server", "https://a.com/x"], ["server", "https://a.com/y"]], none⟩

/-- C5 counterexample: `readEvent` does not deduplicate the server
list — an event with two server tags resolving to the same origin root
yields that normalized URL twice, so a distinct normalized URL can
appear more than once. -/
theorem drive_readEvent_servers_duplicated :
    (Drive.readEvent "" c5Event).map (fun md => md.servers)
      = .ok ["https://a.com/", "https://a.com/"]
    ∧ (Drive.readEvent "" c5Event).map (fun md => md.servers.count "https://a.com/")
      = .ok 2 :=
  ⟨rfl, rfl⟩

/-- An event with a `d` tag but no `name` tag. -/
def c4Event : Event :=
  ⟨DRIVE_KIND, "", 1, [["d", "drive1"]], none⟩

/-- C4 counterexample: on a drive whose current identifier is "abc", an
event without a `name` tag is read with `name = "abc"` — the code
defaults the name to `this.identifier`, not to the empty string. -/
theorem drive_readEvent_name_defaults_to_identifier :
    (Drive.readEvent "abc" c4Event).map (fun md => md.name) = .ok "abc"
    ∧ "abc" ≠ "" :=
  ⟨rfl, by decide⟩

/-- A freshly constructed drive (empty tree, empty metadata). -/
def c7Drive : Drive :=
  { event := none
    metadata := getEmptyMetadata
    tree := TreeNode.folder "" []
    modified := false }

/-- C7 counterexample: `getFolder(path, create = true)` sets the
modified flag but emits NO notification — the emitted list is empty,
not the `change` notification the claim requires of every mutating
accessor. -/
theorem drive_getFolder_create_emits_nothing :
    (Drive.getFolder c7Drive ["a"] true).map (fun r => (r.1.drive.modified, r.1.emits))
      = .ok (true, []) :=
  rfl

/-- A dirty drive whose resident event is stamped at second 100. -/
def c2Drive : Drive :=
  { event := some ⟨DRIVE_KIND, "", 100, [["d", "drive1"]], none⟩
    metadata := ⟨"", "drive1", "", [], none, []⟩
    tree := TreeNode.folder "" []
    modified := true }

/-- C2 counterexample: calling `save()` during the same wall-clock
second as the resident event (template stamped 100, resident stamped
100): the signer and publisher both succeed and `save` returns the
signed event, but the inner `update` rejects it (100 is not strictly
greater than 100), so the state is unchanged and `modified` is still
`true` after the successful save. -/
theorem drive_save_same_second_keeps_modified :
    Drive.save (fun t => t) 100 c2Drive =
      (c2Drive,
       .ok (some ⟨DRIVE_KIND, "", 100,
         [["name", ""], ["description", ""], ["d", "drive1"], ["folder", ""]], none⟩),
       [⟨DRIVE_KIND, "", 100,
         [["name", ""], ["description", ""], ["d", "drive1"], ["folder", ""]], none⟩])
    ∧ c2Drive.modified = true :=
  ⟨rfl, rfl⟩


/-- Whether an `Except` result is a success (the method returned
without throwing). -/
def isOkE {ε α : Type} : Except ε α → Bool
  | .ok _ => true
  | .error _ => false

theorem normalizeServers_of_all_some {l : List (List String)}
    (h : ∀ t ∈ l, (resolveOriginRoot (tagURL t)).isSome = true) :
    normalizeServers l = .ok (l.map (fun t => (resolveOriginRoot (tagURL t)).getD "")) := by
  induction l with
  | nil => rfl
  | cons t ts ih =>
    have h1 := h t (by simp)
    cases hr : resolveOriginRoot (tagURL t) with
    | none => rw [hr] at h1; cases h1
    | some u =>
      simp only [normalizeServers, hr]
      rw [ih (fun x hx => h x (by simp [hx]))]
      simp [hr]

theorem normalizeServers_ok_eq {l : List (List String)} {us : List String}
    (h : normalizeServers l = .ok us) :
    us = l.map (fun t => (resolveOriginRoot (tagURL t)).getD "") := by
  induction l generalizing us with
  | nil =>
    simp only [normalizeServers] at h
    cases h
    rfl
  | cons t ts ih =>
    simp only [normalizeServers] at h
    cases hr : resolveOriginRoot (tagURL t) with
    | none => rw [hr] at h; cases h
    | some u =>
      rw [hr] at h
      cases hn : normalizeServers ts with
      | error m => rw [hn] at h; cases h
      | ok us2 =>
        rw [hn] at h
        cases h
        simp [hr, ih hn]

theorem findTagValue_of_no_tag {tags : List (List String)} {k : String}
    (h : ∀ t ∈ tags, t.head? ≠ some k) : findTagValue tags k = none := by
  simp only [findTagValue]
  rw [List.find?_eq_none.mpr]
  · rfl
  · intro t ht
    simpa using h t ht

/-- The successful result of `readEvent`, spelled out. -/
theorem readEvent_eq_ok (ident : String) (e : Event)
    (hsrv : ∀ t ∈ serverTags e.tags, (resolveOriginRoot (tagURL t)).isSome = true)
    (hd : (findTagValue e.tags "d").getD "" ≠ "") :
    Drive.readEvent ident e = .ok
      { name := (findTagValue e.tags "name").getD ident
        identifier := (findTagValue e.tags "d").getD ""
        description := (findTagValue e.tags "description").getD ""
        servers := (serverTags e.tags).map (fun t => (resolveOriginRoot (tagURL t)).getD "")
        pubkey := e.pubkey
        treeTags := e.tags.filter (fun t =>
          decide (t.head? = some "x" ∨ t.head? = some "folder")) } := by
  unfold Drive.readEvent
  rw [normalizeServers_of_all_some hsrv]
  simp [hd]

/-- A successful normalization means every URL in the list parses. -/
theorem normalizeServers_all_some {l : List (List String)} {us : List String}
    (h : normalizeServers l = .ok us) :
    ∀ t ∈ l, (resolveOriginRoot (tagURL t)).isSome = true := by
  induction l generalizing us with
  | nil => intro t ht; cases ht
  | cons t2 ts ih =>
    simp only [normalizeServers] at h
    cases hr : resolveOriginRoot (tagURL t2) with
    | none => rw [hr] at h; cases h
    | some u =>
      rw [hr] at h
      cases hn : normalizeServers ts with
      | error m => rw [hn] at h; cases h
      | ok us2 =>
        intro t ht
        cases ht with
        | head => simp [hr]
        | tail _ ht2 => exact ih hn t ht2

/-- `readEvent` throws the missing-identifier error when the first `d`
tag value is falsy (given well-formed server tags). -/
theorem readEvent_missing_d (ident : String) (e : Event)
    (hsrv : ∀ t ∈ serverTags e.tags, (resolveOriginRoot (tagURL t)).isSome = true)
    (hd : (findTagValue e.tags "d").getD "" = "") :
    Drive.readEvent ident e = .error "Missing d tag" := by
  unfold Drive.readEvent
  rw [normalizeServers_of_all_some hsrv]
  simp [hd]

/-- `readEvent` succeeding forces the canonical shape of the returned
metadata. -/
theorem readEvent_ok_inv {ident : String} {e : Event} {md : DriveMetadata}
    (h : Drive.readEvent ident e = .ok md) :
    md = { name := (findTagValue e.tags "name").getD ident
           identifier := (findTagValue e.tags "d").getD ""
           description := (findTagValue e.tags "description").getD ""
           servers := (serverTags e.tags).map (fun t => (resolveOriginRoot (tagURL t)).getD "")
           pubkey := e.pubkey
           treeTags := e.tags.filter (fun t =>
             decide (t.head? = some "x" ∨ t.head? = some "folder")) } := by
  by_cases hsrv : ∀ t ∈ serverTags e.tags, (resolveOriginRoot (tagURL t)).isSome = true
  · by_cases hd : (findTagValue e.tags "d").getD "" = ""
    · rw [readEvent_missing_d ident e hsrv hd] at h
      cases h
    · rw [readEvent_eq_ok ident e hsrv hd] at h
      injection h with h2
      exact h2.symm
  · exfalso
    unfold Drive.readEvent at h
    cases hn : normalizeServers (serverTags e.tags) with
    | error m => rw [hn] at h; cases h
    | ok us => exact hsrv (normalizeServers_all_some hn)

/-- `readEvent` succeeding forces a nonempty identifier value. -/
theorem readEvent_ok_ident_ne {ident : String} {e : Event} {md : DriveMetadata}
    (h : Drive.readEvent ident e = .ok md) :
    (findTagValue e.tags "d").getD "" ≠ "" := by
  intro hc
  by_cases hsrv : ∀ t ∈ serverTags e.tags, (resolveOriginRoot (tagURL t)).isSome = true
  · rw [readEvent_missing_d ident e hsrv hc] at h
    cases h
  · unfold Drive.readEvent at h
    cases hn : normalizeServers (serverTags e.tags) with
    | error m => rw [hn] at h; cases h
    | ok us => exact hsrv (normalizeServers_all_some hn)

/-- C4 (amended): `readEvent` fails when the event has no `d` tag (with
the missing-identifier error when the server tags are all well-formed);
a missing `name` tag defaults the name to the drive's current
identifier — which is the empty string only on a fresh drive — and a
missing `description` tag defaults the description to the empty
string. -/
theorem drive_readEvent_default_fields (ident : String) (e : Event) :
    ((∀ t ∈ e.tags, t.head? ≠ some "d") → isOkE (Drive.readEvent ident e) = false)
    ∧ ((∀ t ∈ serverTags e.tags, (resolveOriginRoot (tagURL t)).isSome = true) →
        (∀ t ∈ e.tags, t.head? ≠ some "d") →
        Drive.readEvent ident e = .error "Missing d tag")
    ∧ (∀ md, Drive.readEvent ident e = .ok md →
        (∀ t ∈ e.tags, t.head? ≠ some "name") → md.name = ident)
    ∧ (∀ md, Drive.readEvent ident e = .ok md →
        (∀ t ∈ e.tags, t.head? ≠ some "description") → md.description = "") := by
  refine ⟨?_, ?_, ?_, ?_⟩
  · intro hnod
    cases hre : Drive.readEvent ident e with
    | error m => rfl
    | ok md =>
      exact absurd (by rw [findTagValue_of_no_tag hnod] ; rfl) (readEvent_ok_ident_ne hre)
  · intro hsrv hnod
    apply readEvent_missing_d ident e hsrv
    rw [findTagValue_of_no_tag hnod]
    rfl
  · intro md h hname
    rw [readEvent_ok_inv h]
    simp [findTagValue_of_no_tag hname]
  · intro md h hdesc
    rw [readEvent_ok_inv h]
    simp [findTagValue_of_no_tag hdesc]

/-- C5 (amended): the servers list extracted by `readEvent` consists of
the URLs of the `r`/`server` tags that carry a nonempty URL, in tag
order, each normalized to its origin root — without deduplication, so
a URL appearing in several tags appears once per tag. -/
theorem drive_readEvent_servers_normalized (ident : String) (e : Event) (md : DriveMetadata)
    (h : Drive.readEvent ident e = .ok md) :
    md.servers = (serverTags e.tags).map (fun t => (resolveOriginRoot (tagURL t)).getD "") := by
  rw [readEvent_ok_inv h]

/-- `eventReadable` unpacked into its two components. -/
theorem eventReadable_iff {e : Event} :
    eventReadable e = true ↔
      ((∀ t ∈ serverTags e.tags, (resolveOriginRoot (tagURL t)).isSome = true)
        ∧ (findTagValue e.tags "d").getD "" ≠ "") := by
  simp [eventReadable, List.all_eq_true, Bool.and_eq_true, bne_iff_ne]

/-- The boolean guard of `update` matches its spec-side phrasing. -/
theorem update_guard_iff (d : Drive) (e : Event) :
    ((match d.event with
      | none => true
      | some r => decide (r.created_at < e.created_at)) = true)
    ↔ (d.event = none ∨ ∃ r, d.event = some r ∧ r.created_at < e.created_at) := by
  cases hd : d.event with
  | none => simp
  | some r => simp

/-- `update` when the guard accepts and the event reads cleanly. -/
theorem update_eq_applied (d : Drive) (e : Event) {md : DriveMetadata}
    (hc : (match d.event with
      | none => true
      | some r => decide (r.created_at < e.created_at)) = true)
    (hre : Drive.readEvent d.metadata.identifier e = .ok md) :
    Drive.update d e =
      ({ d with
          event := some e
          metadata := md
          tree := createTreeFromTags md.treeTags
          modified := false },
        .ok true, [Emit.change, Emit.update]) := by
  unfold Drive.update
  rw [if_pos hc]
  unfold Drive.resetFromEvent
  simp [hre]

/-- `update` when the guard accepts but reading the event throws. -/
theorem update_eq_error (d : Drive) (e : Event) {m : String}
    (hc : (match d.event with
      | none => true
      | some r => decide (r.created_at < e.created_at)) = true)
    (hre : Drive.readEvent d.metadata.identifier e = .error m) :
    Drive.update d e = ({ d with event := some e }, .error m, []) := by
  unfold Drive.update
  rw [if_pos hc]
  unfold Drive.resetFromEvent
  simp [hre]

/-- `update` when the guard rejects: a silent no-op returning false. -/
theorem update_eq_rejected (d : Drive) (e : Event)
    (hc : ¬ ((match d.event with
      | none => true
      | some r => decide (r.created_at < e.created_at)) = true)) :
    Drive.update d e = (d, .ok false, []) := by
  unfold Drive.update
  rw [if_neg hc]

/-- One `update` call never decreases the resident timestamp. -/
theorem residentStamp_update_le (d : Drive) (ev : Event) :
    residentStamp d ≤ residentStamp ((Drive.update d ev).1) := by
  by_cases hc : (match d.event with
      | none => true
      | some r => decide (r.created_at < ev.created_at)) = true
  · have hle : residentStamp d ≤ ev.created_at := by
      cases hd : d.event with
      | none => simp [residentStamp, hd]
      | some r =>
        rw [hd] at hc
        simp only [decide_eq_true_eq] at hc
        simp [residentStamp, hd]
        exact le_of_lt hc
    cases hre : Drive.readEvent d.metadata.identifier ev with
    | ok md =>
      rw [update_eq_applied d ev hc hre]
      simpa [residentStamp] using hle
    | error m =>
      rw [update_eq_error d ev hc hre]
      simpa [residentStamp] using hle
  · rw [update_eq_rejected d ev hc]

/-- A sequence of `update` calls never decreases the resident
timestamp. -/
theorem residentStamp_foldl_le (d : Drive) (es : List Event) :
    residentStamp d ≤ residentStamp (es.foldl (fun s ev => (Drive.update s ev).1) d) := by
  induction es generalizing d with
  | nil => simp
  | cons ev es ih =>
    simp only [List.foldl_cons]
    exact le_trans (residentStamp_update_le d ev) (ih _)

/-- C3: for a readable event, `update` installs the event and returns
true exactly when there is no resident event or the incoming timestamp
strictly exceeds the resident one; a rejected event leaves the state
unchanged; re-applying the same event right after a successful update
returns false and changes nothing; and the resident timestamp is
non-decreasing over any sequence of update calls. -/
theorem drive_update_last_writer_wins (d : Drive) (e : Event) (h : eventReadable e = true) :
    (((Drive.update d e).2.1 = .ok true) ↔
      (d.event = none ∨ ∃ r, d.event = some r ∧ r.created_at < e.created_at))
    ∧ ((Drive.update d e).2.1 = .ok true → ((Drive.update d e).1).event = some e)
    ∧ ((Drive.update d e).2.1 = .ok false → (Drive.update d e).1 = d)
    ∧ ((Drive.update d e).2.1 = .ok true →
        Drive.update ((Drive.update d e).1) e = ((Drive.update d e).1, .ok false, []))
    ∧ (∀ es : List Event,
        residentStamp d ≤ residentStamp (es.foldl (fun s ev => (Drive.update s ev).1) d)) := by
  obtain ⟨hsrv, hd⟩ := eventReadable_iff.mp h
  have hre := readEvent_eq_ok d.metadata.identifier e hsrv hd
  by_cases hc : (match d.event with
      | none => true
      | some r => decide (r.created_at < e.created_at)) = true
  · have hup := update_eq_applied d e hc hre
    refine ⟨⟨fun _ => (update_guard_iff d e).mp hc, fun _ => by rw [hup]⟩, ?_, ?_, ?_, ?_⟩
    · intro _
      rw [hup]
    · intro hfalse
      rw [hup] at hfalse
      simp at hfalse
    · intro _
      rw [hup]
      apply update_eq_rejected
      simp
    · intro es
      exact residentStamp_foldl_le d es
  · have hup := update_eq_rejected d e hc
    refine ⟨⟨?_, ?_⟩, ?_, ?_, ?_, ?_⟩
    · intro habs
      rw [hup] at habs
      simp at habs
    · intro hcond
      exact absurd ((update_guard_iff d e).mpr hcond) hc
    · intro habs
      rw [hup] at habs
      simp at habs
    · intro _
      rw [hup]
    · intro habs
      rw [hup] at habs
      simp at habs
    · intro es
      exact residentStamp_foldl_le d es

/-- C9: an event that is newer than the resident one but carries no
`d` tag (and has well-formed server tags) makes `update` throw the
missing-identifier error, after the resident event has already been
replaced; metadata, tree and the modified flag keep their previous
values, and no notification is emitted. -/
theorem drive_update_missing_identifier (d : Drive) (e : Event) (r : Event)
    (hres : d.event = some r) (hnew : r.created_at < e.created_at)
    (hnod : ∀ t ∈ e.tags, t.head? ≠ some "d")
    (hsrv : ∀ t ∈ serverTags e.tags, (resolveOriginRoot (tagURL t)).isSome = true) :
    Drive.update d e = ({ d with event := some e }, .error "Missing d tag", []) := by
  have hre : Drive.readEvent d.metadata.identifier e = .error "Missing d tag" := by
    apply readEvent_missing_d _ _ hsrv
    rw [findTagValue_of_no_tag hnod]
    rfl
  apply update_eq_error d e ?_ hre
  rw [hres]
  simp [hnew]

/-- A successfully built template is stamped with the supplied wall
clock. -/
theorem createEventTemplate_ok_created_at {d : Drive} {now : Nat} {tpl : Event}
    (h : Drive.createEventTemplate d now = .ok tpl) : tpl.created_at = now := by
  simp only [Drive.createEventTemplate] at h
  cases hn : normalizeServerList d.metadata.servers with
  | error m => rw [hn] at h; cases h
  | ok us =>
    rw [hn] at h
    cases h
    rfl

/-- `save` on a dirty drive, with the guard inlined. -/
theorem save_eq_of_modified (signer : Event → Event) (now : Nat) (d : Drive)
    (hm : d.modified = true) :
    Drive.save signer now d =
      (match Drive.createEventTemplate d now with
       | .error m => (d, .error m, [])
       | .ok tpl =>
         match Drive.update d (signer tpl) with
         | (d', .ok _, _) => (d', .ok (some (signer tpl)), [signer tpl])
         | (d', .error m, _) => (d', .error m, [signer tpl])) := by
  unfold Drive.save
  rw [if_neg (by simp [hm])]

/-- C2 (amended): `save()` on an unmodified drive returns immediately
with no side effects; on a modified drive, when `save()` returns
without throwing AND the template's stamp strictly exceeds the resident
event's timestamp (or there is no resident event), the drive ends up
with `modified = false` and a resident event stamped with the save's
template timestamp.  (The counterexample shows the timestamp proviso is
necessary: a template stamped in the same second as the resident event
is rejected by the inner `update`, leaving `modified = true` even
though the signer and publisher succeeded.) -/
theorem drive_save_marks_clean (signer : Event → Event) (now : Nat) (d : Drive)
    (hsig : ∀ t, (signer t).created_at = t.created_at) :
    (d.modified = false → Drive.save signer now d = (d, .ok none, []))
    ∧ (isOkE (Drive.save signer now d).2.1 = true →
        (d.event = none ∨ ∃ r, d.event = some r ∧ r.created_at < now) →
        d.modified = true →
        ((Drive.save signer now d).1).modified = false
          ∧ residentStamp (Drive.save signer now d).1 = now) := by
  constructor
  · intro hm
    unfold Drive.save
    rw [if_pos hm]
  · intro hok hcond hm
    have hsave := save_eq_of_modified signer now d hm
    cases hct : Drive.createEventTemplate d now with
    | error m =>
      rw [hct] at hsave
      rw [hsave] at hok
      simp [isOkE] at hok
    | ok tpl =>
      have hsave2 : Drive.save signer now d =
          (match Drive.update d (signer tpl) with
           | (d', .ok _, _) => (d', .ok (some (signer tpl)), [signer tpl])
           | (d', .error m, _) => (d', .error m, [signer tpl])) := by
        rw [hsave, hct]
      have hstamp : (signer tpl).created_at = now := by
        rw [hsig tpl, createEventTemplate_ok_created_at hct]
      have hc : (match d.event with
          | none => true
          | some r => decide (r.created_at < (signer tpl).created_at)) = true := by
        rcases hcond with hnone | ⟨r, hr, hlt⟩
        · rw [hnone]
        · rw [hr]
          simp [hstamp, hlt]
      cases hre : Drive.readEvent d.metadata.identifier (signer tpl) with
      | error m =>
        rw [update_eq_error d (signer tpl) hc hre] at hsave2
        rw [hsave2] at hok
        simp [isOkE] at hok
      | ok md =>
        have hup := update_eq_applied d (signer tpl) hc hre
        rw [hsave2, hup]
        exact ⟨rfl, by simp [residentStamp, hstamp]⟩

/-- C6: unlocking a locked drive with a password under which the
resident event's content does not decrypt propagates the decryption
error, tears down the password association, leaves the drive locked,
and leaves the observable state (resident event, metadata, tree,
modified flag, scrypt cost) exactly as before the attempt. -/
theorem encryptedDrive_unlock_wrong_password
    (dec : String → String → Option (List (List String)))
    (s : EncryptedDrive) (pw : String) (e : Event)
    (hev : s.event = some e) (hl : s.locked = true)
    (hdec : dec e.content pw = none) :
    EncryptedDrive.unlock dec s pw =
      ({ s with password := none }, .error "Failed to decrypt") := by
  obtain ⟨⟨ev, md, tr, mo⟩, lk, ln, pwd⟩ := s
  simp only at hev hl
  subst hl
  rw [show ev = some e from hev]
  simp [EncryptedDrive.unlock, EncryptedDrive.resetFromEvent, EncryptedDrive.readEvent, hdec]

/-- C7 (amended): every mutating accessor of `Drive` synchronously sets
the modified flag and publishes nothing by itself; `remove`, `move`,
`setFile` and the four metadata setters also emit the `change`
notification, while `getFolder(path, create = true)` sets the flag
without emitting anything. -/
theorem drive_mutators_mark_dirty (d : Drive) (v : String) (vs : List String)
    (p src dest : List String) (meta : FileMetadata) :
    ((Drive.setIdentifier d v).drive.modified = true
      ∧ (Drive.setIdentifier d v).emits = [Emit.change]
      ∧ (Drive.setIdentifier d v).published = [])
    ∧ ((Drive.setName d v).drive.modified = true
      ∧ (Drive.setName d v).emits = [Emit.change]
      ∧ (Drive.setName d v).published = [])
    ∧ ((Drive.setDescription d v).drive.modified = true
      ∧ (Drive.setDescription d v).emits = [Emit.change]
      ∧ (Drive.setDescription d v).published = [])
    ∧ ((Drive.setServers d vs).drive.modified = true
      ∧ (Drive.setServers d vs).emits = [Emit.change]
      ∧ (Drive.setServers d vs).published = [])
    ∧ (∀ r, Drive.remove d p = .ok r →
        r.drive.modified = true ∧ r.emits = [Emit.change] ∧ r.published = [])
    ∧ (∀ r, Drive.move d src dest = .ok r →
        r.drive.modified = true ∧ r.emits = [Emit.change] ∧ r.published = [])
    ∧ (∀ r, Drive.setFile d p meta = .ok r →
        r.drive.modified = true ∧ r.emits = [Emit.change] ∧ r.published = [])
    ∧ (∀ r, Drive.getFolder d p true = .ok r →
        (r.1).drive.modified = true ∧ (r.1).emits = [] ∧ (r.1).published = []) := by
  refine ⟨⟨rfl, rfl, rfl⟩, ⟨rfl, rfl, rfl⟩, ⟨rfl, rfl, rfl⟩, ⟨rfl, rfl, rfl⟩, ?_, ?_, ?_, ?_⟩
  · intro r h
    unfold Drive.remove at h
    cases hf : FileTree.remove d.tree p with
    | error m => rw [hf] at h; cases h
    | ok t' =>
      rw [hf] at h
      cases h
      exact ⟨rfl, rfl, rfl⟩
  · intro r h
    unfold Drive.move at h
    cases hf : FileTree.move d.tree src dest with
    | error m => rw [hf] at h; cases h
    | ok t' =>
      rw [hf] at h
      cases h
      exact ⟨rfl, rfl, rfl⟩
  · intro r h
    unfold Drive.setFile at h
    cases hf : FileTree.setFile d.tree p meta with
    | error m => rw [hf] at h; cases h
    | ok t' =>
      rw [hf] at h
      cases h
      exact ⟨rfl, rfl, rfl⟩
  · intro r h
    unfold Drive.getFolder at h
    cases hf : FileTree.getFolder d.tree p true with
    | error m => rw [hf] at h; cases h
    | ok tf =>
      rw [hf] at h
      cases h
      exact ⟨rfl, rfl, rfl⟩

mutual

/-- All readable file nodes contained in a `FileSystemEntry`. -/
def FSEntry.allFiles : FSEntry → List File
  | .file f _ => [f]
  | .fileError _ => []
  | .dir es => FSEntry.allFilesList es

/-- All readable file nodes contained in a list of entries. -/
def FSEntry.allFilesList : List FSEntry → List File
  | [] => []
  | e :: es => FSEntry.allFiles e ++ FSEntry.allFilesList es

end

theorem addFile_files (u : Upload) (f : File) (p : Option String) :
    ∀ r ∈ (Upload.addFile u f p).files, r ∈ u.files ∨ r.file = correctFileMimeType f := by
  intro r hr
  simp only [Upload.addFile, List.mem_append, List.mem_singleton] at hr
  cases hr with
  | inl h => exact Or.inl h
  | inr h => exact Or.inr (by rw [h])

theorem addFileList_files (u : Upload) (fs : List File) :
    ∀ r ∈ (Upload.addFileList u fs).files,
      r ∈ u.files ∨ ∃ g ∈ fs, r.file = correctFileMimeType g := by
  induction fs generalizing u with
  | nil => intro r hr; exact Or.inl hr
  | cons f fs ih =>
    intro r hr
    simp only [Upload.addFileList, List.foldl_cons] at hr
    rcases ih (Upload.addFile u f none) r hr with h1 | ⟨g, hg, hgf⟩
    · rcases addFile_files u f none r h1 with h2 | h2
      · exact Or.inl h2
      · exact Or.inr ⟨f, by simp, h2⟩
    · exact Or.inr ⟨g, by simp [hg], hgf⟩

mutual

theorem addFileSystemEntry_files (u : Upload) (e : FSEntry) :
    ∀ r ∈ (Upload.addFileSystemEntry u e).files,
      r ∈ u.files ∨ ∃ g ∈ FSEntry.allFiles e, r.file = correctFileMimeType g :=
  match e with
  | .file f p => by
    intro r hr
    simp only [Upload.addFileSystemEntry, List.mem_append, List.mem_singleton] at hr
    cases hr with
    | inl h => exact Or.inl h
    | inr h => exact Or.inr ⟨f, by simp [FSEntry.allFiles], by rw [h]⟩
  | .fileError p => by
    intro r hr
    exact Or.inl hr
  | .dir es => by
    intro r hr
    simp only [Upload.addFileSystemEntry] at hr
    rcases addFileSystemEntries_files u es r hr with h | ⟨g, hg, hgf⟩
    · exact Or.inl h
    · exact Or.inr ⟨g, by simpa [FSEntry.allFiles] using hg, hgf⟩

theorem addFileSystemEntries_files (u : Upload) (es : List FSEntry) :
    ∀ r ∈ (Upload.addFileSystemEntries u es).files,
      r ∈ u.files ∨ ∃ g ∈ FSEntry.allFilesList es, r.file = correctFileMimeType g :=
  match es with
  | [] => by
    intro r hr
    exact Or.inl hr
  | e :: es => by
    intro r hr
    simp only [Upload.addFileSystemEntries] at hr
    rcases addFileSystemEntries_files (Upload.addFileSystemEntry u e) es r hr with h1 | ⟨g, hg, hgf⟩
    · rcases addFileSystemEntry_files u e r h1 with h2 | ⟨g, hg, hgf⟩
      · exact Or.inl h2
      · exact Or.inr ⟨g, by simp [FSEntry.allFilesList, hg], hgf⟩
    · exact Or.inr ⟨g, by simp [FSEntry.allFilesList, hg], hgf⟩

end

/-- C8: every file accepted into the batch — through `addFile`,
`addFileList` or `addFileSystemEntry` — is recorded after the
MIME-correction step: an "audio/x-mpegurl" file whose name ends in
".m3u8" is recorded with type "application/vnd.apple.mpegurl" (name
unchanged), and every other file is recorded unchanged. -/
theorem upload_accepts_corrected_mime (u : Upload) (f : File) (p : Option String)
    (fs : List File) (entry : FSEntry) :
    ((Upload.addFile u f p).files.map (fun r => r.file)
      = u.files.map (fun r => r.file) ++ [correctFileMimeType f])
    ∧ (f.type = "audio/x-mpegurl" → endsWithStr f.name ".m3u8" = true →
        (correctFileMimeType f).type = "application/vnd.apple.mpegurl"
          ∧ (correctFileMimeType f).name = f.name)
    ∧ (¬(f.type = "audio/x-mpegurl" ∧ endsWithStr f.name ".m3u8" = true) →
        correctFileMimeType f = f)
    ∧ (∀ r ∈ (Upload.addFileList u fs).files,
        r ∈ u.files ∨ ∃ g ∈ fs, r.file = correctFileMimeType g)
    ∧ (∀ r ∈ (Upload.addFileSystemEntry u entry).files,
        r ∈ u.files ∨ ∃ g ∈ FSEntry.allFiles entry, r.file = correctFileMimeType g) := by
  refine ⟨?_, ?_, ?_, addFileList_files u fs, addFileSystemEntry_files u entry⟩
  · simp [Upload.addFile]
  · intro h1 h2
    unfold correctFileMimeType
    rw [if_pos ⟨h1, h2⟩]
    exact ⟨rfl, rfl⟩
  · intro h
    unfold correctFileMimeType
    rw [if_neg h]

theorem lookupA_cons_self {κ α : Type} [DecidableEq κ] (k : κ) (v : α) (t : List (κ × α)) :
    lookupA ((k, v) :: t) k = some v := by
  simp [lookupA]

theorem lookupA_setA_self {κ α : Type} [DecidableEq κ] (l : List (κ × α)) (k : κ) (v : α) :
    lookupA (setA l k v) k = some v := by
  induction l with
  | nil => simp [setA, lookupA]
  | cons p t ih =>
    obtain ⟨a, w⟩ := p
    by_cases ha : a = k
    · subst ha
      simp [setA, lookupA]
    · simp [setA, lookupA, ha, ih]

theorem lookupA_setA_ne {κ α : Type} [DecidableEq κ] (l : List (κ × α)) (k k' : κ) (v : α)
    (h : k' ≠ k) : lookupA (setA l k v) k' = lookupA l k' := by
  induction l with
  | nil => simp [setA, lookupA, Ne.symm h]
  | cons p t ih =>
    obtain ⟨a, w⟩ := p
    by_cases ha : a = k
    · subst ha
      simp [setA, lookupA, Ne.symm h]
    · simp only [setA, if_neg ha, lookupA]
      by_cases ha2 : a = k'
      · simp [ha2]
      · simp [ha2, ih]

theorem lookupA_modifyA_self {κ α : Type} [DecidableEq κ] (l : List (κ × α)) (k : κ)
    (g : α → α) : lookupA (modifyA l k g) k = (lookupA l k).map g := by
  induction l with
  | nil => simp [modifyA, lookupA]
  | cons p t ih =>
    obtain ⟨a, w⟩ := p
    by_cases ha : a = k
    · subst ha
      simp [modifyA, lookupA]
    · simp [modifyA, lookupA, ha, ih]

theorem lookupA_modifyA_ne {κ α : Type} [DecidableEq κ] (l : List (κ × α)) (k k' : κ)
    (g : α → α) (h : k' ≠ k) : lookupA (modifyA l k g) k' = lookupA l k' := by
  induction l with
  | nil => simp [modifyA, lookupA]
  | cons p t ih =>
    obtain ⟨a, w⟩ := p
    by_cases ha : a = k
    · subst ha
      simp [modifyA, lookupA, Ne.symm h]
    · simp only [modifyA, if_neg ha, lookupA]
      by_cases ha2 : a = k'
      · simp [ha2]
      · simp [ha2, ih]

theorem ensureKey_lookup_self {α : Type} (m : List (String × List (Nat × α))) (k : String) :
    lookupA (ensureKey m k) k = some ((lookupA m k).getD []) := by
  unfold ensureKey
  cases hm : lookupA m k with
  | some l => simp [hm]
  | none => simp [lookupA_setA_self]

theorem ensureKey_lookup_ne {α : Type} (m : List (String × List (Nat × α))) (k k' : String)
    (h : k' ≠ k) : lookupA (ensureKey m k) k' = lookupA m k' := by
  unfold ensureKey
  cases hm : lookupA m k with
  | some l => rfl
  | none => simp [lookupA_setA_ne _ _ _ _ h]

/-- `serverStep` never changes the file list, the server list or the
base path. -/
theorem serverStep_preserves (net : String → Nat → UploadOutcome)
    (mimeLookup : String → Option String) (v : Upload) (f : UploadFile) (srv : String) :
    (Upload.serverStep net mimeLookup v f srv).files = v.files
    ∧ (Upload.serverStep net mimeLookup v f srv).servers = v.servers
    ∧ (Upload.serverStep net mimeLookup v f srv).basePath = v.basePath := by
  unfold Upload.serverStep
  cases hnet2 : net srv f.id with
  | success blob =>
    dsimp only
    split
    · exact ⟨rfl, rfl, rfl⟩
    · exact ⟨rfl, rfl, rfl⟩
  | failure m => exact ⟨rfl, rfl, rfl⟩
  | thrownNonError => exact ⟨rfl, rfl, rfl⟩

/-- The invariant carried through the per-server loop for one file `f`
and a designated server `s` whose upload throws a non-`Error` value:
nothing has been recorded at `s` (neither blob nor error nor result
entry), while `serversComplete` counts every processed server. -/
def C10Inv (s : String) (fid : Nat) (k : Nat) (v : Upload) : Prop :=
  (lookupA v.blobs s = none ∨ lookupA v.blobs s = some [])
  ∧ (lookupA v.errors s = none ∨ lookupA v.errors s = some [])
  ∧ ∃ st, lookupA v.status fid = some st ∧ lookupA st.results s = none
      ∧ st.serversComplete = k

theorem serverStep_inv (net : String → Nat → UploadOutcome)
    (mimeLookup : String → Option String) (f : UploadFile) (s srv : String) (k : Nat)
    (hnet : net s f.id = .thrownNonError) (v : Upload) (h : C10Inv s f.id k v) :
    C10Inv s f.id (k + 1) (Upload.serverStep net mimeLookup v f srv) := by
  obtain ⟨hb, he, st, hst, hres, hcount⟩ := h
  by_cases hs : srv = s
  · subst hs
    unfold Upload.serverStep
    rw [hnet]
    dsimp only
    refine ⟨?_, ?_,
      ⟨{ st with serversComplete := st.serversComplete + 1 }, ?_, hres, by rw [hcount]⟩⟩
    · rcases hb with hb | hb <;> simp [ensureKey_lookup_self, hb]
    · rcases he with he | he <;> simp [ensureKey_lookup_self, he]
    · rw [lookupA_modifyA_self, hst]
      rfl
  · have hsne : s ≠ srv := fun hh => hs hh.symm
    unfold Upload.serverStep
    cases hnet2 : net srv f.id with
    | thrownNonError =>
      dsimp only
      refine ⟨?_, ?_,
        ⟨{ st with serversComplete := st.serversComplete + 1 }, ?_, hres, by rw [hcount]⟩⟩
      · rw [ensureKey_lookup_ne _ _ _ hsne]
        exact hb
      · rw [ensureKey_lookup_ne _ _ _ hsne]
        exact he
      · rw [lookupA_modifyA_self, hst]
        rfl
    | failure m =>
      dsimp only
      refine ⟨?_, ?_,
        ⟨⟨st.complete, st.pending, st.serversComplete + 1,
            setA st.results srv (UploadResult.failure m)⟩, ?_, ?_, by rw [hcount]⟩⟩
      · rw [ensureKey_lookup_ne _ _ _ hsne]
        exact hb
      · rw [lookupA_modifyA_ne _ _ _ _ hsne, ensureKey_lookup_ne _ _ _ hsne]
        exact he
      · rw [lookupA_modifyA_self, lookupA_modifyA_self, hst]
        rfl
      · rw [lookupA_setA_ne _ _ _ _ hsne]
        exact hres
    | success blob =>
      dsimp only
      split
      next r heq =>
        refine ⟨?_, ?_,
          ⟨⟨st.complete, st.pending, st.serversComplete + 1,
              setA st.results srv (UploadResult.success blob)⟩, ?_, ?_, by rw [hcount]⟩⟩
        · rw [lookupA_modifyA_ne _ _ _ _ hsne, ensureKey_lookup_ne _ _ _ hsne]
          exact hb
        · rw [ensureKey_lookup_ne _ _ _ hsne]
          exact he
        · rw [lookupA_modifyA_self, lookupA_modifyA_self, hst]
          rfl
        · rw [lookupA_setA_ne _ _ _ _ hsne]
          exact hres
      next m2 heq =>
        refine ⟨?_, ?_,
          ⟨⟨st.complete, st.pending, st.serversComplete + 1,
              setA (setA st.results srv (UploadResult.success blob)) srv
                (UploadResult.failure m2)⟩, ?_, ?_, by rw [hcount]⟩⟩
        · rw [lookupA_modifyA_ne _ _ _ _ hsne, ensureKey_lookup_ne _ _ _ hsne]
          exact hb
        · rw [lookupA_modifyA_ne _ _ _ _ hsne, ensureKey_lookup_ne _ _ _ hsne]
          exact he
        · rw [lookupA_modifyA_self, lookupA_modifyA_self, lookupA_modifyA_self, hst]
          rfl
        · rw [lookupA_setA_ne _ _ _ _ hsne, lookupA_setA_ne _ _ _ _ hsne]
          exact hres

theorem serverFold_inv (net : String → Nat → UploadOutcome)
    (mimeLookup : String → Option String) (f : UploadFile) (s : String)
    (hnet : net s f.id = .thrownNonError) :
    ∀ (srvs : List String) (k : Nat) (v : Upload), C10Inv s f.id k v →
      C10Inv s f.id (k + srvs.length)
        (srvs.foldl (fun w srv => Upload.serverStep net mimeLookup w f srv) v) := by
  intro srvs
  induction srvs with
  | nil =>
    intro k v h
    simpa using h
  | cons srv srvs ih =>
    intro k v h
    simp only [List.foldl_cons, List.length_cons]
    have h2 := ih (k + 1) _ (serverStep_inv net mimeLookup f s srv k hnet v h)
    rw [show k + (srvs.length + 1) = (k + 1) + srvs.length by omega]
    exact h2

theorem serverFold_preserves (net : String → Nat → UploadOutcome)
    (mimeLookup : String → Option String) (f : UploadFile) :
    ∀ (srvs : List String) (v : Upload),
      ((srvs.foldl (fun w srv => Upload.serverStep net mimeLookup w f srv) v).files = v.files)
      ∧ ((srvs.foldl (fun w srv => Upload.serverStep net mimeLookup w f srv) v).servers
          = v.servers) := by
  intro srvs
  induction srvs with
  | nil => intro v; exact ⟨rfl, rfl⟩
  | cons srv srvs ih =>
    intro v
    simp only [List.foldl_cons]
    obtain ⟨h1, h2⟩ := ih (Upload.serverStep net mimeLookup v f srv)
    obtain ⟨p1, p2, _⟩ := serverStep_preserves net mimeLookup v f srv
    exact ⟨by rw [h1, p1], by rw [h2, p2]⟩

/-- Running `fileStep` on a state where the designated server's maps
are still empty and the file's status is freshly initialized: the
non-`Error` throw at `s` leaves no record anywhere, while the status
ends complete with `serversComplete` equal to the full server count. -/
theorem fileStep_inv (net : String → Nat → UploadOutcome)
    (mimeLookup : String → Option String) (f : UploadFile) (s : String)
    (hnet : net s f.id = .thrownNonError) (v : Upload) (st0 : UploadFileStatus)
    (hst : lookupA v.status f.id = some st0) (hres : lookupA st0.results s = none)
    (hcount : st0.serversComplete = 0)
    (hb : lookupA v.blobs s = none ∨ lookupA v.blobs s = some [])
    (he : lookupA v.errors s = none ∨ lookupA v.errors s = some []) :
    (lookupA (Upload.fileStep net mimeLookup v f).blobs s = none
      ∨ lookupA (Upload.fileStep net mimeLookup v f).blobs s = some [])
    ∧ (lookupA (Upload.fileStep net mimeLookup v f).errors s = none
      ∨ lookupA (Upload.fileStep net mimeLookup v f).errors s = some [])
    ∧ (∃ st, lookupA (Upload.fileStep net mimeLookup v f).status f.id = some st
        ∧ lookupA st.results s = none
        ∧ st.serversComplete = v.servers.length
        ∧ st.complete = true)
    ∧ (Upload.fileStep net mimeLookup v f).files = v.files := by
  unfold Upload.fileStep
  dsimp only
  have hstart : C10Inv s f.id 0
      { v with status := modifyA v.status f.id (fun st => { st with pending := false }) } := by
    refine ⟨hb, he, ⟨{ st0 with pending := false }, ?_, hres, hcount⟩⟩
    rw [lookupA_modifyA_self, hst]
    rfl
  have hfold := serverFold_inv net mimeLookup f s hnet v.servers 0 _ hstart
  obtain ⟨hfb, hfe, stf, hfst, hfres, hfcount⟩ := hfold
  obtain ⟨hpf, _⟩ := serverFold_preserves net mimeLookup f v.servers
    { v with status := modifyA v.status f.id (fun st => { st with pending := false }) }
  refine ⟨hfb, hfe, ⟨{ stf with complete := true }, ?_, hfres, ?_, rfl⟩, hpf⟩
  · rw [lookupA_modifyA_self, hfst]
    rfl
  · simpa using hfcount

/-- A freshly accumulated single-file batch: the state of an `Upload`
after construction and one accepted file, before `upload()` runs. -/
def c10Batch (d : Drive) (basePath : String) (servers : List String) (f : UploadFile) : Upload :=
  { drive := d
    servers := servers
    basePath := basePath
    complete := false
    running := false
    nextId := 0
    files := [f]
    status := []
    blobs := []
    errors := [] }

/-- The batch state right after `upload()` has marked itself running
and initialized the per-file status records. -/
def c10Mid (d : Drive) (basePath : String) (servers : List String) (f : UploadFile) : Upload :=
  { drive := d
    servers := servers
    basePath := basePath
    complete := false
    running := true
    nextId := 0
    files := [f]
    status := [(f.id, { complete := false, pending := true, serversComplete := 0, results := [] })]
    blobs := []
    errors := [] }

/-- C10: during `upload()` of a single-file batch, a per-server attempt
that throws a value that is not an `instanceof Error` is recorded
nowhere — no blob, no error-map entry, no `status.results` entry for
that server — yet `serversComplete` still counts it and the file is
still marked complete, so `status.results` holds fewer entries than
there are servers and the per-server progress computed from the
blobs/errors maps stays strictly below 1. -/
theorem upload_nonError_failure_swallowed (net : String → Nat → UploadOutcome)
    (mimeLookup : String → Option String) (signer : Event → Event) (now : Nat)
    (d : Drive) (basePath : String) (servers : List String) (s : String) (f : UploadFile)
    (hs : s ∈ servers) (hnet : net s f.id = .thrownNonError) :
    (lookupA ((lookupA (Upload.upload net mimeLookup signer now
        (c10Batch d basePath servers f)).1.blobs s).getD []) f.id = none)
    ∧ (lookupA ((lookupA (Upload.upload net mimeLookup signer now
        (c10Batch d basePath servers f)).1.errors s).getD []) f.id = none)
    ∧ (∃ st, lookupA (Upload.upload net mimeLookup signer now
        (c10Batch d basePath servers f)).1.status f.id = some st
        ∧ lookupA st.results s = none
        ∧ st.serversComplete = servers.length
        ∧ st.complete = true)
    ∧ Upload.serverProgress (Upload.upload net mimeLookup signer now
        (c10Batch d basePath servers f)).1 s < 1 := by
  have hredux : Upload.upload net mimeLookup signer now (c10Batch d basePath servers f) =
      (match Drive.save signer now
          (Upload.fileStep net mimeLookup (c10Mid d basePath servers f) f).drive with
       | (d', .ok _, _) =>
         ({ Upload.fileStep net mimeLookup (c10Mid d basePath servers f) f with
            drive := d', complete := true }, .ok ())
       | (d', .error m, _) =>
         ({ Upload.fileStep net mimeLookup (c10Mid d basePath servers f) f with
            drive := d' }, .error m)) := rfl
  obtain ⟨hfb, hfe, ⟨st, hst, hres, hcount, hcomp⟩, hfiles⟩ :=
    fileStep_inv net mimeLookup f s hnet (c10Mid d basePath servers f)
      { complete := false, pending := true, serversComplete := 0, results := [] }
      (lookupA_cons_self _ _ _) rfl rfl (Or.inl rfl) (Or.inl rfl)
  rw [hredux]
  split
  next d' a pub heq =>
    refine ⟨?_, ?_, ⟨st, hst, hres, hcount, hcomp⟩, ?_⟩
    · rcases hfb with h1 | h1 <;> rw [h1] <;> rfl
    · rcases hfe with h1 | h1 <;> rw [h1] <;> rfl
    · rcases hfb with h1 | h1 <;> rcases hfe with h2 | h2 <;>
        (unfold Upload.serverProgress; rw [h1, h2, hfiles]; norm_num [c10Mid])
  next d' m pub heq =>
    refine ⟨?_, ?_, ⟨st, hst, hres, hcount, hcomp⟩, ?_⟩
    · rcases hfb with h1 | h1 <;> rw [h1] <;> rfl
    · rcases hfe with h1 | h1 <;> rw [h1] <;> rfl
    · rcases hfb with h1 | h1 <;> rcases hfe with h2 | h2 <;>
        (unfold Upload.serverProgress; rw [h1, h2, hfiles]; norm_num [c10Mid])

/-- A dirty fresh drive with identifier "w1" and no resident event. -/
def c2wDrive : Drive :=
  { event := none
    metadata := ⟨"", "w1", "", [], none, []⟩
    tree := TreeNode.folder "" []
    modified := true }

theorem drive_save_marks_clean_witness :
    ((Drive.save (fun t => t) 5 c2wDrive).1).modified = false
    ∧ residentStamp (Drive.save (fun t => t) 5 c2wDrive).1 = 5 :=
  (drive_save_marks_clean (fun t => t) 5 c2wDrive (fun _ => rfl)).2 rfl (Or.inl rfl) rfl

/-- A readable drive event stamped at second 50. -/
def c3Event : Event := ⟨DRIVE_KIND, "", 50, [["d", "w3"]], none⟩

/-- A fresh drive with no resident event. -/
def c3Drive : Drive :=
  { event := none
    metadata := getEmptyMetadata
    tree := TreeNode.folder "" []
    modified := false }

theorem drive_update_last_writer_wins_witness :
    (Drive.update c3Drive c3Event).2.1 = .ok true :=
  (drive_update_last_writer_wins c3Drive c3Event (by decide)).1.mpr (Or.inl rfl)

/-- An event with neither a `d` tag nor a `name` tag. -/
def c4WitnessEvent : Event := ⟨DRIVE_KIND, "", 1, [["folder", "docs"]], none⟩

theorem drive_readEvent_default_fields_witness :
    isOkE (Drive.readEvent "abc" c4WitnessEvent) = false :=
  (drive_readEvent_default_fields "abc" c4WitnessEvent).1 (by decide)

/-- The metadata `readEvent` extracts from `c5Event`. -/
def c5Md : DriveMetadata :=
  ⟨"", "drive1", "", ["https://a.com/", "https://a.com/"], none, []⟩

theorem drive_readEvent_servers_normalized_witness :
    c5Md.servers = (serverTags c5Event.tags).map
      (fun t => (resolveOriginRoot (tagURL t)).getD "") :=
  drive_readEvent_servers_normalized "" c5Event c5Md rfl

/-- The resident event of the locked sample drive. -/
def c6Event : Event := ⟨ENCRYPTED_DRIVE_KIND, "zzz", 9, [["d", "enc6"]], none⟩

/-- A locked `EncryptedDrive` holding a resident event. -/
def c6Drive : EncryptedDrive :=
  { event := some c6Event
    metadata := ⟨"", "enc6", "", [], none, []⟩
    tree := TreeNode.folder "" []
    modified := false
    locked := true
    logn := 10
    password := none }

theorem encryptedDrive_unlock_wrong_password_witness :
    EncryptedDrive.unlock (fun _ _ => none) c6Drive "guess" =
      ({ c6Drive with password := none }, .error "Failed to decrypt") :=
  encryptedDrive_unlock_wrong_password (fun _ _ => none) c6Drive "guess" c6Event rfl rfl rfl

/-- A drive holding a single file at the root. -/
def c7wDrive : Drive :=
  { event := none
    metadata := getEmptyMetadata
    tree := TreeNode.folder "" [TreeNode.file "a.txt" ⟨"h", 1, "t"⟩]
    modified := false }

/-- The result of removing that file. -/
def c7wRes : MutResult :=
  ⟨{ c7wDrive with tree := TreeNode.folder "" [], modified := true }, [Emit.change], []⟩

theorem drive_mutators_mark_dirty_witness :
    c7wRes.drive.modified = true ∧ c7wRes.emits = [Emit.change] ∧ c7wRes.published = [] :=
  (drive_mutators_mark_dirty c7wDrive "x" [] ["a.txt"] [] [] ⟨"h", 1, "t"⟩).2.2.2.2.1 c7wRes rfl

/-- A playlist file carrying the mislabeled browser MIME type. -/
def c8File : File := ⟨"video.m3u8", "audio/x-mpegurl", ""⟩

/-- An empty upload batch over a fresh drive. -/
def c8Upload : Upload :=
  { drive := { event := none, metadata := getEmptyMetadata, tree := TreeNode.folder "" [], modified := false }
    servers := []
    basePath := ""
    complete := false
    running := false
    nextId := 0
    files := []
    status := []
    blobs := []
    errors := [] }

theorem upload_accepts_corrected_mime_witness :
    (Upload.addFile c8Upload c8File none).files.map (fun r => r.file)
      = c8Upload.files.map (fun r => r.file) ++ [correctFileMimeType c8File]
    ∧ (correctFileMimeType c8File).type = "application/vnd.apple.mpegurl" :=
  ⟨(upload_accepts_corrected_mime c8Upload c8File none [] (FSEntry.dir [])).1,
   ((upload_accepts_corrected_mime c8Upload c8File none [] (FSEntry.dir [])).2.1 rfl (by decide)).1⟩

/-- A drive whose resident event is stamped at second 10. -/
def c9Drive : Drive :=
  { event := some ⟨DRIVE_KIND, "", 10, [["d", "w9"]], none⟩
    metadata := ⟨"", "w9", "", [], none, []⟩
    tree := TreeNode.folder "" []
    modified := false }

/-- A newer event with no `d` tag. -/
def c9Event : Event := ⟨DRIVE_KIND, "", 20, [["name", "n"]], none⟩

theorem drive_update_missing_identifier_witness :
    Drive.update c9Drive c9Event =
      ({ c9Drive with event := some c9Event }, .error "Missing d tag", []) :=
  drive_update_missing_identifier c9Drive c9Event ⟨DRIVE_KIND, "", 10, [["d", "w9"]], none⟩
    rfl (by decide) (by decide) (by decide)

/-- A fresh drive for the upload batch sample. -/
def c10wDrive : Drive :=
  { event := none
    metadata := getEmptyMetadata
    tree := TreeNode.folder "" []
    modified := false }

/-- The single file of the upload batch sample. -/
def c10wFile : UploadFile := ⟨0, ⟨"a.txt", "text/plain", ""⟩, "a.txt"⟩

theorem upload_nonError_failure_swallowed_witness :
    lookupA ((lookupA (Upload.upload (fun _ _ => UploadOutcome.thrownNonError) (fun _ => none)
        (fun t => t) 0 (c10Batch c10wDrive "" ["https://a.com/"] c10wFile)).1.blobs
        "https://a.com/").getD []) c10wFile.id = none :=
  (upload_nonError_failure_swallowed (fun _ _ => UploadOutcome.thrownNonError) (fun _ => none)
    (fun t => t) 0 c10wDrive "" ["https://a.com/"] "https://a.com/" c10wFile
    (by decide) rfl).1
